import Mathlib

/-!
Verification of the ntex web application builder (src/ntex/src/web/app.rs)
against its natural-language specification.

The builder (`App`), the middleware `Stack`, and the identity `Filter`
service are embedded directly from the source file.  Components of the
repository that the claims depend on but that are not part of the given
source file (the router matching machinery, the per-worker application
service, the data store resolution, reverse URL generation) are modelled
from the specification; each such definition carries a doc comment that
starts with `Modelled from the spec:`.
-/

/-! ## Middleware stack (from `Stack` in app.rs) -/

/-- A middleware stack as accumulated by `App::wrap`: the builder starts
from the `Identity` transform and each `wrap(mw)` call replaces the
middleware by `Stack::new(self.middleware, mw)`, so the registered
transforms form a left-nested tree with the newest registration outermost. -/
inductive Mw (μ : Type) where
  | identity : Mw μ
  | stack : Mw μ → μ → Mw μ

/-- `Stack<Inner, Outer>` from app.rs: an ordered pair of transforms. -/
structure Stack (ι ω : Type) where
  inner : ι
  outer : ω

/-- `Stack::new(inner, outer)` from app.rs. -/
def Stack.new {ι ω : Type} (inner : ι) (outer : ω) : Stack ι ω :=
  ⟨inner, outer⟩

/-- `Stack::new_transform` from app.rs:
`self.outer.new_transform(self.inner.new_transform(service))`.
A transform is embedded by its `new_transform` action on services,
supplied as the functions `wrapI` and `wrapO`. -/
def Stack.new_transform {ι ω υ : Type} (wrapI : ι → υ → υ) (wrapO : ω → υ → υ)
    (st : Stack ι ω) (s : υ) : υ :=
  wrapO st.outer (wrapI st.inner s)

/-- Action of an accumulated middleware tree on a service.  The `Identity`
transform returns the service unchanged (the no-op base case of the stack),
and a `stack inner outer` node applies the outer transform to the result of
the inner one, exactly as `Stack::new_transform` does. -/
def Mw.newTransform {μ υ : Type} (interp : μ → υ → υ) : Mw μ → υ → υ
  | .identity, s => s
  | .stack inner outer, s => interp outer (Mw.newTransform interp inner s)

/-! ## Filter steps (from `Filter` in app.rs and the spec's filter chain) -/

/-- One step of the request-filter chain.  `identity` is the `Filter`
service from app.rs, whose `call` forwards the request unchanged; `step`
is a registered filter, embedded as a function from a request to either a
forwarded request (`Sum.inl`) or a short-circuiting response (`Sum.inr`),
tagged with an identifier used to record which steps actually executed. -/
inductive FStep (Req Resp : Type) where
  | identity : FStep Req Resp
  | step : Nat → (Req → Sum Req Resp) → FStep Req Resp

/-- Execute one filter step on a request. The `identity` case is the
`Service` impl of `Filter` in app.rs: `call(req)` returns `Ready::Ok(req)`. -/
def runStep {Req Resp : Type} : FStep Req Resp → Req → Sum Req Resp
  | .identity, r => Sum.inl r
  | .step _ f, r => f r

/-- Identifier(s) recorded when a step executes. -/
def stepIds {Req Resp : Type} : FStep Req Resp → List Nat
  | .identity => []
  | .step i _ => [i]

/-- Modelled from the spec: the sequential filter chain built by
`and_then` (the service-combinator crate is not part of the given source).
Step N's output request is step N+1's input; any step producing a response
terminates the chain early.  The result carries the identifiers of the
steps that actually executed. -/
def runChain {Req Resp : Type} : List (FStep Req Resp) → Req → Sum Req Resp × List Nat
  | [], r => (Sum.inl r, [])
  | s :: rest, r =>
    match runStep s r with
    | Sum.inl r2 =>
      let p := runChain rest r2
      (p.1, stepIds s ++ p.2)
    | Sum.inr resp => (Sum.inr resp, stepIds s)

/-- Result of processing one request through the filter chain and (when
reached) the router: the response, the identifiers of the filter steps
that executed, and whether the router/handler stage was invoked at all. -/
structure HandleResult (Resp : Type) where
  response : Resp
  executed : List Nat
  routerInvoked : Bool

instance {Resp : Type} [DecidableEq Resp] : DecidableEq (HandleResult Resp) := by
  intro a b
  cases a
  cases b
  simp only [HandleResult.mk.injEq]
  exact instDecidableAnd

/-- Modelled from the spec: the inbound data flow `request → filter
pipeline (may short-circuit to a response) → router`.  When some filter
step returns a response, that response is returned directly and the
router stage is never invoked. -/
def handleVia {Req Resp : Type} (filters : List (FStep Req Resp))
    (router : Req → Resp) (req : Req) : HandleResult Resp :=
  match runChain filters req with
  | (Sum.inr resp, ids) => ⟨resp, ids, false⟩
  | (Sum.inl r2, ids) => ⟨router r2, ids, true⟩

/-! ## The `Filter` service factory / service impl from app.rs -/

/-- Readiness poll outcome of a service. -/
inductive Poll (α : Type) where
  | ready : α → Poll α
  | pending : Poll α

/-- `Filter::new_service` from app.rs: `Ready::Ok(Filter(PhantomData))` —
construction always succeeds, yielding the identity step. -/
def Filter.new_service {Req Resp : Type} (_u : Unit) : Except Unit (FStep Req Resp) :=
  Except.ok FStep.identity

/-- `Filter::poll_ready` from app.rs: `task::Poll::Ready(Ok(()))`. -/
def Filter.poll_ready {η : Type} : Poll (Except η Unit) :=
  Poll.ready (Except.ok ())

/-- `Filter::call` from app.rs: `Ready::Ok(req)` — the request is returned
unchanged (the filter's response type is the request type). -/
def Filter.call {η Req : Type} (req : Req) : Except η Req :=
  Except.ok req

/-! ## The application builder `App` from app.rs -/

/-- The contents of a `ServiceConfig` as consumed by `App::configure`:
the configure body extends exactly the builder's `data`, `services` and
`external` lists from the config. -/
structure ServiceConfig (σ γ : Type) where
  data : List γ
  services : List σ
  external : List (String × String)

/-- `ServiceConfig::new()`: an empty configuration, as created at the
start of `App::configure`. -/
def ServiceConfig.new {σ γ : Type} : ServiceConfig σ γ :=
  ⟨[], [], []⟩

/-- The `App` builder struct from app.rs.  Type parameters: `Req`/`Resp`
the request/response types of the filter chain, `μ` the middleware
transforms, `σ` the registered services, `δ` the default service, `γ` the
data entries, `κ` the data factories, `ε` the extension entries, `ρ` the
error renderer.  The `filter` field (a `PipelineFactory` in the source)
is embedded as the list of registered steps, and `external` (a
`Vec<ResourceDef>` whose names were set) as a name-to-pattern list. -/
structure App (Req Resp μ σ δ γ κ ε ρ : Type) where
  middleware : Mw μ
  filter : List (FStep Req Resp)
  services : List σ
  default : Option δ
  data : List γ
  data_factories : List κ
  external : List (String × String)
  extensions : List ε
  error_renderer : ρ
  case_insensitive : Bool

/-- `App::new()` / `App::with(err)` from app.rs: identity middleware,
the pipeline holding the single identity `Filter`, everything else empty,
case-insensitive routing off. -/
def App.new {Req Resp μ σ δ γ κ ε ρ : Type} (err : ρ) : App Req Resp μ σ δ γ κ ε ρ :=
  { middleware := Mw.identity
    filter := [FStep.identity]
    services := []
    default := none
    data := []
    data_factories := []
    external := []
    extensions := []
    error_renderer := err
    case_insensitive := false }

/-- `App::data` from app.rs: pushes one entry onto the `data` list.
(Named `addData` because the field `data` occupies the source name.) -/
def App.addData {Req Resp μ σ δ γ κ ε ρ : Type}
    (a : App Req Resp μ σ δ γ κ ε ρ) (d : γ) : App Req Resp μ σ δ γ κ ε ρ :=
  { a with data := a.data ++ [d] }

/-- `App::data_factory` from app.rs: pushes one factory onto
`data_factories`. -/
def App.data_factory {Req Resp μ σ δ γ κ ε ρ : Type}
    (a : App Req Resp μ σ δ γ κ ε ρ) (k : κ) : App Req Resp μ σ δ γ κ ε ρ :=
  { a with data_factories := a.data_factories ++ [k] }

/-- `App::service` from app.rs: pushes one service factory onto
`services`. -/
def App.service {Req Resp μ σ δ γ κ ε ρ : Type}
    (a : App Req Resp μ σ δ γ κ ε ρ) (s : σ) : App Req Resp μ σ δ γ κ ε ρ :=
  { a with services := a.services ++ [s] }

/-- `App::default_service` from app.rs: sets the global default slot. -/
def App.default_service {Req Resp μ σ δ γ κ ε ρ : Type}
    (a : App Req Resp μ σ δ γ κ ε ρ) (d : δ) : App Req Resp μ σ δ γ κ ε ρ :=
  { a with default := some d }

/-- `App::external_resource` from app.rs: builds a named `ResourceDef`
and pushes it onto `external`. -/
def App.external_resource {Req Resp μ σ δ γ κ ε ρ : Type}
    (a : App Req Resp μ σ δ γ κ ε ρ) (name url : String) : App Req Resp μ σ δ γ κ ε ρ :=
  { a with external := a.external ++ [(name, url)] }

/-- `App::configure` from app.rs: runs the closure on a fresh
`ServiceConfig`, then extends `data`, `services` and `external` with the
config's lists — and touches nothing else. -/
def App.configure {Req Resp μ σ δ γ κ ε ρ : Type}
    (a : App Req Resp μ σ δ γ κ ε ρ) (f : ServiceConfig σ γ → ServiceConfig σ γ) :
    App Req Resp μ σ δ γ κ ε ρ :=
  let cfg := f ServiceConfig.new
  { a with
    data := a.data ++ cfg.data
    services := a.services ++ cfg.services
    external := a.external ++ cfg.external }

/-- `App::filter` from app.rs: replaces the filter pipeline by
`self.filter.and_then(filter)`, i.e. appends exactly one step; all other
fields are moved over unchanged.  (Named `addFilter` because the field
`filter` occupies the source name.) -/
def App.addFilter {Req Resp μ σ δ γ κ ε ρ : Type}
    (a : App Req Resp μ σ δ γ κ ε ρ) (s : FStep Req Resp) : App Req Resp μ σ δ γ κ ε ρ :=
  { a with filter := a.filter ++ [s] }

/-- `App::wrap` from app.rs: replaces the middleware by
`Stack::new(self.middleware, mw)`; all other fields are moved over
unchanged. -/
def App.wrap {Req Resp μ σ δ γ κ ε ρ : Type}
    (a : App Req Resp μ σ δ γ κ ε ρ) (mw : μ) : App Req Resp μ σ δ γ κ ε ρ :=
  { a with middleware := Mw.stack a.middleware mw }

/-- `App::case_insensitive_routing` from app.rs: sets the router-wide
flag. -/
def App.case_insensitive_routing {Req Resp μ σ δ γ κ ε ρ : Type}
    (a : App Req Resp μ σ δ γ κ ε ρ) : App Req Resp μ σ δ γ κ ε ρ :=
  { a with case_insensitive := true }

/-! ## Tracing services, to observe middleware call order -/

/-- A service instrumented to record observation order: it receives the
log of inbound observations so far and returns the completed log. -/
def TSvc : Type := List String → List String

/-- A tracing middleware transform: records seeing the request before
delegating and records seeing the response after the delegate returns. -/
def traceT (n : String) (s : TSvc) : TSvc :=
  fun log => s (log ++ ["req:" ++ n]) ++ ["resp:" ++ n]

/-- A traced terminal handler. -/
def handlerT : TSvc :=
  fun log => log ++ ["handler"]

/-! ## Router / resource table (modelled from the spec) -/

/-- Modelled from the spec: a path-pattern segment — an exact static
segment or a named dynamic segment capturing the matched path segment
(the router crate is not part of the given source). -/
inductive Segment where
  | static : String → Segment
  | dynamic : String → Segment
deriving DecidableEq

/-- Request methods, as far as the claims need them. -/
inductive Method where
  | GET
  | POST
  | HEAD
  | PUT
deriving DecidableEq

/-- Outcome of the routing decision: a dispatched service outcome, or one
of the two well-defined terminal fallback states. -/
inductive Outcome (α : Type) where
  | ok : α → Outcome α
  | notFound : Outcome α
  | methodNotAllowed : Outcome α
deriving DecidableEq

/-- ASCII lowercase of a string, written over the character list so that
it evaluates by structural reduction. -/
def lowerStr (s : String) : String :=
  String.mk (s.data.map Char.toLower)

/-- Modelled from the spec: match a pattern against a request path (split
into segments), returning the captured name/value pairs on success.  In
case-insensitive mode only purely static segments compare ASCII
case-insensitively; a dynamic segment captures the path segment verbatim. -/
def captures (ci : Bool) : List Segment → List String → Option (List (String × String))
  | [], [] => some []
  | Segment.static s :: ps, t :: ts =>
    if (if ci then lowerStr s == lowerStr t else s == t) then captures ci ps ts else none
  | Segment.dynamic n :: ps, t :: ts =>
    (captures ci ps ts).map (fun cs => (n, t) :: cs)
  | _, _ => none

/-- A pattern matches a path when capturing succeeds. -/
def patMatches (ci : Bool) (ps : List Segment) (ts : List String) : Bool :=
  (captures ci ps ts).isSome

/-- Modelled from the spec: a registered resource — a path pattern, the
routes it defines keyed by method, and an optional per-resource default
override. -/
structure ResourceM (α : Type) where
  pattern : List Segment
  routes : List (Method × α)
  rdefault : Option α
deriving DecidableEq

/-- Modelled from the spec: the frozen router — resources in registration
order, the optional application-level default, and the router-wide
case-insensitivity flag set once at assembly time. -/
structure RouterM (α : Type) where
  resources : List (ResourceM α)
  gdefault : Option α
  caseInsensitive : Bool
deriving DecidableEq

/-- First route registered for the given method, if any. -/
def findRoute {α : Type} (m : Method) : List (Method × α) → Option α
  | [] => none
  | (rm, a) :: rest => if rm == m then some a else findRoute m rest

/-- Modelled from the spec: the routing decision for one request.
Resources are tried in registration order and the first whose pattern
matches wins; a matching resource dispatches its route for the method,
falling back to its own default override, else to the method-not-allowed
terminal state; if no resource matches, the application-level default is
invoked if registered, else the not-found terminal state results. -/
def dispatch {α : Type} (r : RouterM α) (m : Method) (path : List String) : Outcome α :=
  match r.resources.find? (fun res => patMatches r.caseInsensitive res.pattern path) with
  | some res =>
    match findRoute m res.routes with
    | some a => Outcome.ok a
    | none =>
      match res.rdefault with
      | some d => Outcome.ok d
      | none => Outcome.methodNotAllowed
  | none =>
    match r.gdefault with
    | some d => Outcome.ok d
    | none => Outcome.notFound

/-- Modelled from the spec: one registration seen by the assembler —
either a matchable resource or an external (name, pattern) entry. -/
inductive Registration (α : Type) where
  | resource : ResourceM α → Registration α
  | external : String → String → Registration α

/-- Modelled from the spec: the assembler's matching table keeps exactly
the resource registrations; external resources are excluded from the
matching iteration. -/
def assembleResources {α : Type} : List (Registration α) → List (ResourceM α)
  | [] => []
  | Registration.resource r :: rest => r :: assembleResources rest
  | Registration.external _ _ :: rest => assembleResources rest

/-- Modelled from the spec: the assembler's name-to-pattern table for
reverse URL generation keeps exactly the external registrations. -/
def assembleUrlTable {α : Type} : List (Registration α) → List (String × String)
  | [] => []
  | Registration.resource _ :: rest => assembleUrlTable rest
  | Registration.external n p :: rest => (n, p) :: assembleUrlTable rest

/-! ## Reverse URL generation (modelled from the spec) -/

/-- A piece of an external URL pattern: a literal run or a dynamic
segment name written between braces. -/
inductive UrlPiece where
  | lit : String → UrlPiece
  | param : String → UrlPiece
deriving DecidableEq

/-- The opening brace character. -/
def lbrace : Char := Char.ofNat 123

/-- The closing brace character. -/
def rbrace : Char := Char.ofNat 125

/-- Modelled from the spec: split a URL pattern into literal runs and
brace-delimited dynamic-segment names.  `acc` holds the reversed
characters of the piece being read; `inParam` tells whether they belong
to a dynamic-segment name. -/
def parsePieces : List Char → List Char → Bool → List UrlPiece
  | [], acc, false => if acc.isEmpty then [] else [UrlPiece.lit (String.mk acc.reverse)]
  | [], acc, true => [UrlPiece.param (String.mk acc.reverse)]
  | c :: cs, acc, false =>
    if c == lbrace then
      if acc.isEmpty then parsePieces cs [] true
      else UrlPiece.lit (String.mk acc.reverse) :: parsePieces cs [] true
    else parsePieces cs (c :: acc) false
  | c :: cs, acc, true =>
    if c == rbrace then UrlPiece.param (String.mk acc.reverse) :: parsePieces cs [] false
    else parsePieces cs (c :: acc) true

/-- Modelled from the spec: substitute the ordered values for the dynamic
segments of a parsed pattern; fails when values run out. -/
def substPieces : List UrlPiece → List String → Option String
  | [], _ => some ""
  | UrlPiece.lit s :: ps, vs => (substPieces ps vs).map (fun r => s ++ r)
  | UrlPiece.param _ :: ps, v :: vs => (substPieces ps vs).map (fun r => v ++ r)
  | UrlPiece.param _ :: _, [] => none

/-- Errors of reverse URL generation: the distinct unknown-resource-name
condition, and exhaustion of substitution values. -/
inductive UrlError where
  | unknownResourceName
  | notEnoughElements
deriving DecidableEq

/-- Look a name up in the name-to-pattern table. -/
def lookupName (tbl : List (String × String)) (n : String) : Option String :=
  (tbl.find? (fun p => p.1 == n)).map (fun p => p.2)

/-- Modelled from the spec: reverse URL generation (`url_for`) — look the
name up in the name-to-pattern table and substitute the ordered values
for the pattern's dynamic segments; a name that was never registered
fails with the distinct unknown-resource-name error. -/
def urlFor (tbl : List (String × String)) (n : String) (vals : List String) :
    Except UrlError String :=
  match lookupName tbl n with
  | none => Except.error UrlError.unknownResourceName
  | some pat =>
    match substPieces (parsePieces pat.data [] false) vals with
    | none => Except.error UrlError.notEnoughElements
    | some s => Except.ok s

/-! ## Application state store (modelled from the spec) -/

/-- Modelled from the spec: per-worker resolution of the registered data
factories (the per-worker application service is not part of the given
source).  Each factory outcome is an `Except`: a failure is logged by the
closure built in `App::data_factory` and the entry is simply omitted —
construction of the store itself always succeeds (a total function), it
is not a fatal application error. -/
def constructData {η ν : Type} : List (Except η ν) → List ν
  | [] => []
  | Except.ok v :: rest => v :: constructData rest
  | Except.error _ :: rest => constructData rest

/-- Modelled from the spec: typed lookup in the type-keyed store (type
identity embedded as a `Nat` key).  The most recently registered entry of
the exact requested key wins; a key with zero entries yields `none`. -/
def lookupData {ν : Type} (store : List (Nat × ν)) (k : Nat) : Option ν :=
  (store.reverse.find? (fun p => p.1 == k)).map (fun p => p.2)

/-- Modelled from the spec: a handler requesting data of key `k` —
present data yields a success status (200), the distinct
missing-application-data condition is rendered as an internal server
error status (500). -/
def handleWithData {ν : Type} (store : List (Nat × ν)) (k : Nat) : Nat :=
  match lookupData store k with
  | some _ => 200
  | none => 500

/-! ## Claim theorems -/

/-- C1: For every pair of Transforms (inner, outer) and every Service S,
applying `Stack::new(inner, outer)` to S produces `outer.wrap(inner.wrap(S))`;
consequently, for a builder on which `wrap(A)` is called and then `wrap(B)`,
B becomes the outermost middleware, observing each inbound request before A
and each outbound response after A (shown by the recorded observation
order of two tracing middlewares around a traced handler). -/
theorem stack_wrap_order :
    (∀ (ι ω υ : Type) (wrapI : ι → υ → υ) (wrapO : ω → υ → υ) (i : ι) (o : ω) (s : υ),
      Stack.new_transform wrapI wrapO (Stack.new i o) s = wrapO o (wrapI i s))
    ∧ (∀ (υ Req Resp σ δ γ κ ε ρ : Type) (err : ρ) (A B : υ → υ) (S : υ),
      Mw.newTransform (fun t => t)
        (App.wrap (App.wrap (App.new err : App Req Resp (υ → υ) σ δ γ κ ε ρ) A) B).middleware S
        = B (A S))
    ∧ Mw.newTransform (fun t => t)
        (App.wrap (App.wrap (App.new () : App Unit Unit (TSvc → TSvc) Unit Unit Unit Unit Unit Unit)
          (traceT "A")) (traceT "B")).middleware handlerT []
        = ["req:B", "req:A", "handler", "resp:A", "resp:B"] :=
  ⟨fun _ _ _ _ _ _ _ _ => rfl, fun _ _ _ _ _ _ _ _ _ _ _ _ _ => rfl, rfl⟩

/-- C9: The filter chain of a newly created App builder is the identity
filter, and each filter() call appends exactly one step by sequential
composition; the identity filter's call returns its input request
unchanged, its poll_ready always reports ready, its service construction
always succeeds, and an application with no registered filters passes
every request through to routing unmodified. -/
theorem filter_identity_chain :
    (∀ (Req Resp μ σ δ γ κ ε ρ : Type) (err : ρ),
      (App.new err : App Req Resp μ σ δ γ κ ε ρ).filter = [FStep.identity])
    ∧ (∀ (Req Resp μ σ δ γ κ ε ρ : Type) (a : App Req Resp μ σ δ γ κ ε ρ) (s : FStep Req Resp),
      (App.addFilter a s).filter = a.filter ++ [s])
    ∧ (∀ (Req Resp : Type) (req : Req),
      runStep (FStep.identity : FStep Req Resp) req = Sum.inl req)
    ∧ (∀ (Req : Type) (req : Req), @Filter.call Unit Req req = Except.ok req)
    ∧ (∀ (Req Resp : Type), @Filter.new_service Req Resp () = Except.ok FStep.identity)
    ∧ @Filter.poll_ready Unit = Poll.ready (Except.ok ())
    ∧ (∀ (Req Resp : Type) (req : Req),
      runChain ([FStep.identity] : List (FStep Req Resp)) req = (Sum.inl req, [])) :=
  ⟨fun _ _ _ _ _ _ _ _ _ _ => rfl, fun _ _ _ _ _ _ _ _ _ _ _ => rfl,
   fun _ _ _ => rfl, fun _ _ => rfl, fun _ _ => rfl, rfl, fun _ _ _ => rfl⟩

/-- C10: Every builder registration operation modifies only the field(s)
it registers into and returns every other builder field unchanged: wrap
changes only the middleware stack, filter changes only the filter chain,
data appends only to the data list, and configure merges only the data,
services and external registrations from the ServiceConfig — middleware,
filters, data factories, the default service, extensions, the error
renderer, and the case-insensitivity flag cannot be altered through
configure. -/
theorem builder_frame_conditions :
    ∀ (Req Resp μ σ δ γ κ ε ρ : Type) (a : App Req Resp μ σ δ γ κ ε ρ)
      (m : μ) (s : FStep Req Resp) (d : γ) (f : ServiceConfig σ γ → ServiceConfig σ γ),
    ((App.wrap a m).middleware = Mw.stack a.middleware m
      ∧ (App.wrap a m).filter = a.filter
      ∧ (App.wrap a m).services = a.services
      ∧ (App.wrap a m).default = a.default
      ∧ (App.wrap a m).data = a.data
      ∧ (App.wrap a m).data_factories = a.data_factories
      ∧ (App.wrap a m).external = a.external
      ∧ (App.wrap a m).extensions = a.extensions
      ∧ (App.wrap a m).error_renderer = a.error_renderer
      ∧ (App.wrap a m).case_insensitive = a.case_insensitive)
    ∧ ((App.addFilter a s).filter = a.filter ++ [s]
      ∧ (App.addFilter a s).middleware = a.middleware
      ∧ (App.addFilter a s).services = a.services
      ∧ (App.addFilter a s).default = a.default
      ∧ (App.addFilter a s).data = a.data
      ∧ (App.addFilter a s).data_factories = a.data_factories
      ∧ (App.addFilter a s).external = a.external
      ∧ (App.addFilter a s).extensions = a.extensions
      ∧ (App.addFilter a s).error_renderer = a.error_renderer
      ∧ (App.addFilter a s).case_insensitive = a.case_insensitive)
    ∧ ((App.addData a d).data = a.data ++ [d]
      ∧ (App.addData a d).middleware = a.middleware
      ∧ (App.addData a d).filter = a.filter
      ∧ (App.addData a d).services = a.services
      ∧ (App.addData a d).default = a.default
      ∧ (App.addData a d).data_factories = a.data_factories
      ∧ (App.addData a d).external = a.external
      ∧ (App.addData a d).extensions = a.extensions
      ∧ (App.addData a d).error_renderer = a.error_renderer
      ∧ (App.addData a d).case_insensitive = a.case_insensitive)
    ∧ ((App.configure a f).data = a.data ++ (f ServiceConfig.new).data
      ∧ (App.configure a f).services = a.services ++ (f ServiceConfig.new).services
      ∧ (App.configure a f).external = a.external ++ (f ServiceConfig.new).external
      ∧ (App.configure a f).middleware = a.middleware
      ∧ (App.configure a f).filter = a.filter
      ∧ (App.configure a f).data_factories = a.data_factories
      ∧ (App.configure a f).default = a.default
      ∧ (App.configure a f).extensions = a.extensions
      ∧ (App.configure a f).error_renderer = a.error_renderer
      ∧ (App.configure a f).case_insensitive = a.case_insensitive) :=
  fun _ _ _ _ _ _ _ _ _ _ _ _ _ _ =>
    ⟨⟨rfl, rfl, rfl, rfl, rfl, rfl, rfl, rfl, rfl, rfl⟩,
     ⟨rfl, rfl, rfl, rfl, rfl, rfl, rfl, rfl, rfl, rfl⟩,
     ⟨rfl, rfl, rfl, rfl, rfl, rfl, rfl, rfl, rfl, rfl⟩,
     ⟨rfl, rfl, rfl, rfl, rfl, rfl, rfl, rfl, rfl, rfl⟩⟩

/-- C2: For every set of registered resources and every incoming request
whose path matches no registered resource, the application-level default
service registered via default_service is invoked if one was registered;
if no such default was registered, the resulting response has a not-found
status. -/
theorem no_match_global_default {α : Type} (r : RouterM α) (m : Method) (path : List String)
    (h : r.resources.all (fun res => !(patMatches r.caseInsensitive res.pattern path)) = true) :
    dispatch r m path =
      match r.gdefault with
      | some d => Outcome.ok d
      | none => Outcome.notFound := by
  have hf : r.resources.find? (fun res => patMatches r.caseInsensitive res.pattern path) = none := by
    rw [List.find?_eq_none]
    intro x hx
    have hb := List.all_eq_true.mp h x hx
    simp only [Bool.not_eq_true'] at hb
    simp [hb]
  simp only [dispatch, hf]

/-- Witness for C2, mirroring `test_default_resource`: with one resource
for path `test` and a registered global default, the unmatched path
`blah` is answered by the global default. -/
theorem no_match_global_default_witness :
    ((⟨[⟨[Segment.static "test"], [(Method.GET, 200)], none⟩], some 405, false⟩ :
        RouterM Nat).resources.all
      (fun res => !(patMatches false res.pattern ["blah"])) = true)
    ∧ dispatch (⟨[⟨[Segment.static "test"], [(Method.GET, 200)], none⟩], some 405, false⟩ :
        RouterM Nat) Method.GET ["blah"] = Outcome.ok 405 :=
  ⟨by decide, no_match_global_default _ Method.GET ["blah"] (by decide)⟩

/-- C3: For a resource registered with its own per-resource default
service and a route only for the GET method, a GET request to that
resource's path returns the route's outcome, while a POST request to the
same path returns the resource's own default outcome — independently of
whatever application-level global default the router carries. -/
theorem resource_default_overrides {α : Type} (r : RouterM α) (res : ResourceM α)
    (path : List String) (a d : α)
    (hfind : r.resources.find? (fun x => patMatches r.caseInsensitive x.pattern path) = some res)
    (hroutes : res.routes = [(Method.GET, a)])
    (hdef : res.rdefault = some d) :
    dispatch r Method.GET path = Outcome.ok a
    ∧ dispatch r Method.POST path = Outcome.ok d := by
  constructor
  · simp [dispatch, hfind, hroutes, findRoute]
  · simp [dispatch, hfind, hroutes, hdef, findRoute]

/-- Witness for C3, mirroring `test_default_resource`: resource `test2`
with a GET route (outcome 200) and its own default (outcome 201), global
default 405; GET yields 200 and POST yields 201, not 405. -/
theorem resource_default_overrides_witness :
    ((⟨[⟨[Segment.static "test2"], [(Method.GET, 200)], some 201⟩], some 405, false⟩ :
        RouterM Nat).resources.find?
      (fun x => patMatches false x.pattern ["test2"])
        = some ⟨[Segment.static "test2"], [(Method.GET, 200)], some 201⟩)
    ∧ dispatch (⟨[⟨[Segment.static "test2"], [(Method.GET, 200)], some 201⟩], some 405, false⟩ :
        RouterM Nat) Method.GET ["test2"] = Outcome.ok 200
    ∧ dispatch (⟨[⟨[Segment.static "test2"], [(Method.GET, 200)], some 201⟩], some 405, false⟩ :
        RouterM Nat) Method.POST ["test2"] = Outcome.ok 201 := by
  refine ⟨by decide, ?_, ?_⟩
  · exact (resource_default_overrides _
      ⟨[Segment.static "test2"], [(Method.GET, 200)], some 201⟩
      ["test2"] 200 201 (by decide) rfl rfl).1
  · exact (resource_default_overrides _
      ⟨[Segment.static "test2"], [(Method.GET, 200)], some 201⟩
      ["test2"] 200 201 (by decide) rfl rfl).2

/-- C7: When case_insensitive_routing() has been called on the builder,
two request paths that differ only in ASCII case of purely static
segments match the same registered static-segment resource; dynamic
segments retain exact-case semantics and their captured values are not
case-normalized; the flag is a single router-wide field, false on a new
builder and set once by the builder call. -/
theorem case_insensitive_static_only :
    (∀ (Req Resp μ σ δ γ κ ε ρ : Type) (err : ρ),
      (App.new err : App Req Resp μ σ δ γ κ ε ρ).case_insensitive = false)
    ∧ (∀ (Req Resp μ σ δ γ κ ε ρ : Type) (a : App Req Resp μ σ δ γ κ ε ρ),
      (App.case_insensitive_routing a).case_insensitive = true)
    ∧ patMatches true [Segment.static "test"] ["Test"] = true
    ∧ patMatches true [Segment.static "test"] ["test"] = true
    ∧ patMatches false [Segment.static "test"] ["Test"] = false
    ∧ (∀ t : String, captures true [Segment.dynamic "id"] [t] = some [("id", t)])
    ∧ (∀ (ci : Bool) (n t : String) (ps : List Segment) (ts : List String),
      captures ci (Segment.dynamic n :: ps) (t :: ts)
        = (captures ci ps ts).map (fun cs => (n, t) :: cs)) :=
  ⟨fun _ _ _ _ _ _ _ _ _ _ => rfl, fun _ _ _ _ _ _ _ _ _ _ => rfl,
   by decide, by decide, by decide, fun _ => rfl, fun _ _ _ _ _ => rfl⟩

/-- Helper: a chain whose prefix forwards the request continues with the
rest of the chain on the forwarded request, accumulating executed ids. -/
theorem runChain_append_inl {Req Resp : Type} (xs : List (FStep Req Resp)) :
    ∀ (ys : List (FStep Req Resp)) (req r2 : Req) (ids : List Nat),
    runChain xs req = (Sum.inl r2, ids) →
    runChain (xs ++ ys) req = ((runChain ys r2).1, ids ++ (runChain ys r2).2) := by
  induction xs with
  | nil =>
    intro ys req r2 ids h
    simp only [runChain, Prod.mk.injEq, Sum.inl.injEq] at h
    obtain ⟨h1, h2⟩ := h
    subst h1
    subst h2
    simp
  | cons s rest ih =>
    intro ys req r2 ids h
    simp only [runChain] at h
    cases hstep : runStep s req with
    | inl rmid =>
      rw [hstep] at h
      simp only [Prod.mk.injEq] at h
      obtain ⟨h1, h2⟩ := h
      cases hrest : runChain rest rmid with
      | mk q1 q2 =>
        rw [hrest] at h1 h2
        simp only at h1 h2
        subst h1
        subst h2
        have hmid : runChain rest rmid = (Sum.inl r2, q2) := hrest
        simp only [List.cons_append, runChain, hstep, List.append_eq]
        rw [ih ys rmid r2 q2 hmid]
        simp [List.append_assoc]
    | inr resp =>
      rw [hstep] at h
      simp at h

/-- C4: For every request, if a registered filter step returns a response
instead of forwarding the request, that response is returned directly on
the outbound path and neither the router, nor any handler, nor any later
filter step is invoked for that request: the handle result carries the
filter's response, records as executed only the steps up to and including
the short-circuiting one, and reports the router stage as never invoked. -/
theorem filter_short_circuit {Req Resp : Type} (xs ys : List (FStep Req Resp))
    (s : FStep Req Resp) (router : Req → Resp) (req r2 : Req) (resp : Resp) (ids : List Nat)
    (hpre : runChain xs req = (Sum.inl r2, ids))
    (hstep : runStep s r2 = Sum.inr resp) :
    handleVia (xs ++ s :: ys) router req = ⟨resp, ids ++ stepIds s, false⟩ := by
  have h1 : runChain (s :: ys) r2 = (Sum.inr resp, stepIds s) := by
    simp [runChain, hstep]
  have h2 := runChain_append_inl xs (s :: ys) req r2 ids hpre
  rw [h1] at h2
  simp [handleVia, h2]

/-- Witness for C4: a first filter forwards a modified request, the
second short-circuits with response 99; the response is 99, only steps 1
and 2 executed (never step 3), and the router (which would answer 0) was
never invoked. -/
theorem filter_short_circuit_witness :
    runChain ([FStep.step 1 (fun n => Sum.inl (n + 1))] : List (FStep Nat Nat)) 5
      = (Sum.inl 6, [1])
    ∧ runStep (FStep.step 2 (fun _ => Sum.inr 99) : FStep Nat Nat) 6 = Sum.inr 99
    ∧ handleVia (([FStep.step 1 (fun n => Sum.inl (n + 1))] : List (FStep Nat Nat)) ++
        (FStep.step 2 (fun _ => Sum.inr 99) : FStep Nat Nat) ::
          [FStep.step 3 (fun n => Sum.inl n)])
        (fun _ => 0) 5 = ⟨99, [1, 2], false⟩ :=
  ⟨rfl, rfl,
   filter_short_circuit ([FStep.step 1 (fun n => Sum.inl (n + 1))] : List (FStep Nat Nat))
     [FStep.step 3 (fun n => Sum.inl n)] (FStep.step 2 (fun _ => Sum.inr 99))
     (fun _ => 0) 5 6 99 [1] rfl rfl⟩

/-- Helper: the constructed data store distributes over list append. -/
theorem constructData_append {η ν : Type} (xs ys : List (Except η ν)) :
    constructData (xs ++ ys) = constructData xs ++ constructData ys := by
  induction xs with
  | nil => rfl
  | cons x rest ih =>
    cases x with
    | ok v => simp [constructData, ih]
    | error e => simp [constructData, ih]

/-- C5: If an asynchronous data factory fails during per-worker
construction, that single data entry is omitted from the constructed
application state; the failure is not fatal (construction still yields
the same store as without the failing factory), and a request that does
not require the missing entry still succeeds. -/
theorem data_factory_failure_omitted {η ν : Type}
    (xs ys : List (Except η (Nat × ν))) (e : η) (k : Nat)
    (h : handleWithData (constructData (xs ++ ys)) k = 200) :
    constructData (xs ++ [Except.error e] ++ ys) = constructData (xs ++ ys)
    ∧ handleWithData (constructData (xs ++ [Except.error e] ++ ys)) k = 200 := by
  have heq : constructData (xs ++ [Except.error e] ++ ys) = constructData (xs ++ ys) := by
    simp [constructData_append, constructData]
  exact ⟨heq, heq ▸ h⟩

/-- Witness for C5: one successful factory for key 0, one failing
factory; the store still holds the key-0 entry and a request for it
succeeds. -/
theorem data_factory_failure_omitted_witness :
    handleWithData (constructData ([Except.ok (0, 10)] ++ ([] : List (Except Unit (Nat × Nat))))) 0
      = 200
    ∧ (constructData (([Except.ok (0, 10)] : List (Except Unit (Nat × Nat)))
          ++ [Except.error ()] ++ [])
        = constructData (([Except.ok (0, 10)] : List (Except Unit (Nat × Nat))) ++ [])
      ∧ handleWithData (constructData (([Except.ok (0, 10)] : List (Except Unit (Nat × Nat)))
          ++ [Except.error ()] ++ [])) 0 = 200) :=
  ⟨rfl, data_factory_failure_omitted [Except.ok (0, 10)] [] () 0 rfl⟩

/-- C6: For an application with a data factory producing a value keyed by
type `kD` and a handler requesting application data of key `kR`: the
factory construction itself succeeds; if `kR` equals `kD` the request
succeeds (status 200); if `kR` differs from `kD` the request yields an
internal-server-error response (status 500) arising from the distinct
missing-application-data condition, not a construction failure. -/
theorem data_type_mismatch {ν : Type} (v : ν) (kD kR : Nat) (hne : kR ≠ kD) :
    constructData [(Except.ok (kD, v) : Except Unit (Nat × ν))] = [(kD, v)]
    ∧ handleWithData [(kD, v)] kD = 200
    ∧ handleWithData [(kD, v)] kR = 500 := by
  refine ⟨rfl, ?_, ?_⟩
  · simp [handleWithData, lookupData, List.find?]
  · have hkk : (kD == kR) = false := by
      simp only [beq_eq_false_iff_ne, ne_eq]
      exact fun hEq => hne hEq.symm
    simp [handleWithData, lookupData, List.find?, hkk]

/-- Witness for C6, mirroring `test_data_factory`: key 0 plays `usize`,
key 1 plays `u32`; a factory-produced key-0 entry answers a key-0 request
with 200 and a key-1 request with 500. -/
theorem data_type_mismatch_witness :
    (1 : Nat) ≠ 0
    ∧ (constructData [(Except.ok (0, 10) : Except Unit (Nat × Nat))] = [(0, 10)]
      ∧ handleWithData [((0 : Nat), (10 : Nat))] 0 = 200
      ∧ handleWithData [((0 : Nat), (10 : Nat))] 1 = 500) :=
  ⟨by decide, data_type_mismatch 10 0 1 (by decide)⟩

/-- Helper: external registrations never enter the assembled matching
table. -/
theorem assembleResources_append_external {α : Type}
    (regs : List (Registration α)) (n u : String) :
    assembleResources (regs ++ [Registration.external n u]) = assembleResources regs := by
  induction regs with
  | nil => rfl
  | cons r rest ih =>
    cases r with
    | resource res => simp [assembleResources, ih]
    | external a b => simp [assembleResources, ih]

/-- Helper: an external registration lands in the assembled
name-to-pattern table. -/
theorem assembleUrlTable_append_external {α : Type}
    (regs : List (Registration α)) (n u : String) :
    assembleUrlTable (regs ++ [Registration.external n u])
      = assembleUrlTable regs ++ [(n, u)] := by
  induction regs with
  | nil => rfl
  | cons r rest ih =>
    cases r with
    | resource res => simp [assembleUrlTable, ih]
    | external a b => simp [assembleUrlTable, ih]

/-- C8: An external resource registered via external_resource(name,
pattern) is stored in the name-to-pattern table used for reverse URL
generation and never participates in request matching; reverse URL
generation for a registered name with ordered substitution values yields
exactly the pattern with each dynamic segment replaced by its value, and
generation for a name that was never registered fails with the distinct
unknown-resource-name error. -/
theorem external_resource_url_generation :
    urlFor [("youtube", "https://youtube.com/watch/\x7bvideo_id\x7d")] "youtube" ["12345"]
      = Except.ok "https://youtube.com/watch/12345"
    ∧ urlFor [("youtube", "https://youtube.com/watch/\x7bvideo_id\x7d")] "vimeo" ["12345"]
      = Except.error UrlError.unknownResourceName
    ∧ (∀ (Req Resp μ σ δ γ κ ε ρ : Type) (a : App Req Resp μ σ δ γ κ ε ρ) (n u : String),
      (App.external_resource a n u).external = a.external ++ [(n, u)]
      ∧ (App.external_resource a n u).services = a.services)
    ∧ (∀ (α : Type) (regs : List (Registration α)) (n u : String),
      assembleUrlTable (regs ++ [Registration.external n u])
        = assembleUrlTable regs ++ [(n, u)])
    ∧ (∀ (α : Type) (regs : List (Registration α)) (n u : String) (g : Option α) (ci : Bool)
        (m : Method) (path : List String),
      dispatch ⟨assembleResources (regs ++ [Registration.external n u]), g, ci⟩ m path
        = dispatch ⟨assembleResources regs, g, ci⟩ m path) := by
  refine ⟨rfl, rfl, fun _ _ _ _ _ _ _ _ _ _ _ _ => ⟨rfl, rfl⟩,
    fun _ regs n u => assembleUrlTable_append_external regs n u,
    fun _ regs n u g ci m path => ?_⟩
  rw [assembleResources_append_external]
